import Mathlib

/-!
Verification development for the sBitx Branch Manager repository
(Repository Checkout & Build Orchestrator and its collaborators).

The Python sources are shallowly embedded as Lean functions:

* external `subprocess.run` invocations are abstracted by a `RunOutcome`
  oracle (the call completed with some exit code, timed out, or failed to
  execute at all);
* Python exceptions become the `Except` error channel; a function that
  swallows all exceptions and returns `None` is modelled as a total
  function into `Option`;
* the persisted JSON configuration store becomes an explicit filesystem
  state `FS` threaded through the `ConfigManager` operations;
* machine integers (process exit codes) are modelled as `Int`.

Each embedded definition keeps the name of the Python function it models.
-/

deriving instance DecidableEq for Except

/-! ## String primitives shared by several modules -/

/-- The ASCII whitespace characters removed by Python `str.strip()`
(Python additionally strips non-ASCII Unicode whitespace, which never
occurs in the strings manipulated here). -/
def isPySpace (c : Char) : Bool :=
  c == ' ' || c == '\t' || c == '\n' || c == '\r' || c == '\x0b' || c == '\x0c'

/-- Python `str.strip()` on a list of characters: drop leading and
trailing whitespace. -/
def pyStripL (l : List Char) : List Char :=
  ((l.dropWhile isPySpace).reverse.dropWhile isPySpace).reverse

/-- Python `str.strip()`. -/
def pyStrip (s : String) : String :=
  ⟨pyStripL s.data⟩

/-- `hasPfx p l` holds when the character list `p` is an initial segment
of `l` (used to model anchored literal regex fragments). -/
def hasPfx : List Char → List Char → Bool
  | [], _ => true
  | _ :: _, [] => false
  | p :: ps, c :: cs => p == c && hasPfx ps cs

/-- Remove the initial segment `p` from `l`, or fail when `l` does not
start with `p`. -/
def dropPfx : List Char → List Char → Option (List Char)
  | [], l => some l
  | _ :: _, [] => none
  | p :: ps, c :: cs => if p == c then dropPfx ps cs else none

/-- `endsWithL l s` holds when `s` is a final segment of `l`
(Python `str.endswith`). -/
def endsWithL (l s : List Char) : Bool :=
  hasPfx s.reverse l.reverse

/-- The four characters of the literal `.git` suffix. -/
def gitSufL : List Char := ['.', 'g', 'i', 't']

/-- Remove one trailing `.git` from `l` when present (the effect of the
optional `(\.git)?$` group in the URL regexes). -/
def stripDotGit (l : List Char) : List Char :=
  if endsWithL l gitSufL then l.take (l.length - 4) else l

/-- Python `str.split(sep)` for a one-character separator, on character
lists: split at every occurrence of `sep`; the empty input yields one
empty field, as in Python. -/
def splitChar (sep : Char) : List Char → List (List Char)
  | [] => [[]]
  | c :: cs =>
    if c = sep then [] :: splitChar sep cs
    else
      match splitChar sep cs with
      | [] => [[c]]
      | l :: ls => (c :: l) :: ls

/-- Python `str.split(sep)` for a one-character separator. -/
def pySplit (sep : Char) (s : String) : List String :=
  (splitChar sep s.data).map fun l => ⟨l⟩

/-- One fuel-indexed step list for Python `str.replace(pat, rep)` with a
nonempty pattern: scan left to right, replacing each (non-overlapping)
occurrence. The fuel is the input length; every step consumes at least
one character, so the fuel never runs out for a nonempty pattern. -/
def replaceAllGo (pat rep : List Char) : Nat → List Char → List Char
  | _, [] => []
  | 0, l => l
  | fuel + 1, c :: cs =>
    match dropPfx pat (c :: cs) with
    | some rest => rep ++ replaceAllGo pat rep fuel rest
    | none => c :: replaceAllGo pat rep fuel cs

/-- Python `str.replace(pat, rep)` for a nonempty pattern, on character
lists. -/
def replaceAllL (pat rep l : List Char) : List Char :=
  replaceAllGo pat rep l.length l

/-- Python `str.replace(pat, rep)` for a nonempty pattern. -/
def pyReplace (pat rep s : String) : String :=
  ⟨replaceAllL pat.data rep.data s.data⟩

/-- Lexicographic `≤` on character lists by code point, as Python
compares strings (computable by structural recursion). -/
def lexLe : List Char → List Char → Bool
  | [], _ => true
  | _ :: _, [] => false
  | a :: as, b :: bs => if a = b then lexLe as bs else decide (a < b)

/-- Python's `≤` on strings: lexicographic by code point. -/
def strLeb (a b : String) : Bool :=
  lexLe a.data b.data

/-! ## models/repository.py -/

/-- A character matched by the regex class `[\w-]` (Python `\w` also
matches non-ASCII word characters; nothing below depends on the exact
alphabet beyond it excluding `/`, `.`, `:` and whitespace, which Python
also excludes). -/
def isWordHyphen (c : Char) : Bool :=
  c.isAlphanum || c == '_' || c == '-'

/-- A nonempty run of `[\w-]` characters. -/
def wordSeg (l : List Char) : Bool :=
  !l.isEmpty && l.all isWordHyphen

/-- `ownerRepoB l` holds when `l` matches the anchored regex fragment
`[\w-]+/[\w-]+` (exactly one slash separating two nonempty word runs). -/
def ownerRepoB (l : List Char) : Bool :=
  match l.splitOn '/' with
  | [a, b] => wordSeg a && wordSeg b
  | _ => false

/-- The literal prefix of the HTTPS pattern `^https://github\.com/`. -/
def httpsPfxL : List Char :=
  ['h', 't', 't', 'p', 's', ':', '/', '/', 'g', 'i', 't', 'h', 'u', 'b', '.', 'c', 'o', 'm', '/']

/-- The literal prefix of the SSH pattern `^git@github\.com:`. -/
def sshPfxL : List Char :=
  ['g', 'i', 't', '@', 'g', 'i', 't', 'h', 'u', 'b', '.', 'c', 'o', 'm', ':']

/-- The literal optional prefix `(github\.com/)?` of the short pattern. -/
def ghPfxL : List Char :=
  ['g', 'i', 't', 'h', 'u', 'b', '.', 'c', 'o', 'm', '/']

/-- Match `^https://github\.com/([\w-]+/[\w-]+)(\.git)?$`, returning the
captured group. Since `.` is not in `[\w-]`, the optional `.git` suffix
is consumed exactly when present. -/
def matchHttps (u : List Char) : Option (List Char) :=
  match dropPfx httpsPfxL u with
  | none => none
  | some rest =>
    if ownerRepoB (stripDotGit rest) then some (stripDotGit rest) else none

/-- Match `^git@github\.com:([\w-]+/[\w-]+)(\.git)?$`, returning the
captured group. -/
def matchSsh (u : List Char) : Option (List Char) :=
  match dropPfx sshPfxL u with
  | none => none
  | some rest =>
    if ownerRepoB (stripDotGit rest) then some (stripDotGit rest) else none

/-- Match `^(github\.com/)?([\w-]+/[\w-]+)$`, returning the second group.
When the input starts with `github.com/`, the regex alternative without
the optional group can never match (the input then contains a `.`, which
`[\w-]` excludes), so trying the prefixed parse first is equivalent to
the regex with backtracking. -/
def matchShort (u : List Char) : Option (List Char) :=
  match dropPfx ghPfxL u with
  | some rest => if ownerRepoB rest then some rest else none
  | none => if ownerRepoB u then some u else none

/-- The body of `Repository.validate_and_normalize_url` after the
initial `url = url.strip()`, applied to the stripped URL `u`: try the
HTTPS, SSH and short patterns in order. -/
def normStripped (u : List Char) : Option (List Char) :=
  match matchHttps u with
  | some base => some (httpsPfxL ++ base ++ gitSufL)
  | none =>
    match matchSsh u with
    | some _ => some (if endsWithL u gitSufL then u else u ++ gitSufL)
    | none =>
      match matchShort u with
      | some userRepo => some (httpsPfxL ++ userRepo ++ gitSufL)
      | none => none

/-- `Repository.validate_and_normalize_url` on character lists: strip
whitespace, then try the three patterns. -/
def normalizeL (input : List Char) : Option (List Char) :=
  normStripped (pyStripL input)

/-- `Repository.validate_and_normalize_url`: validate and normalize a
GitHub repository URL, returning `none` for invalid input. -/
def validate_and_normalize_url (s : String) : Option String :=
  (normalizeL s.data).map fun l => ⟨l⟩

/-- Extract the display name from an already-normalized URL: the capture
of `re.search(r'github\.com[/:]([\w-]+/[\w-]+)', normalized)`. On the
normalized shapes produced by `validate_and_normalize_url` (an HTTPS or
SSH GitHub URL ending in `.git`) this is the `owner/repo` part; the final
branch is the `display_name = normalized_url` fallback of the source. -/
def extract_display_name (url : String) : String :=
  match dropPfx httpsPfxL url.data with
  | some rest => ⟨stripDotGit rest⟩
  | none =>
    match dropPfx sshPfxL url.data with
    | some rest => ⟨stripDotGit rest⟩
    | none => url

/-- `models/repository.py` `Repository`: a checkable-out source
(JSON-level entries are modelled as already well-typed records). -/
structure Repository where
  url : String
  display_name : String
  added_date : String
deriving DecidableEq, Repr

/-- `Repository.create_new`: validate and normalize the URL, derive the
display name, and stamp the creation date (`datetime.now()` is passed in
as the `now` argument). -/
def create_new (url : String) (now : String) : Option Repository :=
  match validate_and_normalize_url url with
  | none => none
  | some normalized =>
    some { url := normalized, display_name := extract_display_name normalized, added_date := now }

/-! ## Outcomes of external commands

Every `subprocess.run` call either completes with some exit code, raises
`subprocess.TimeoutExpired`, or raises another exception (e.g. the tool
binary cannot be executed). The embedding abstracts each invocation by
this oracle. -/

/-- Outcome of one `subprocess.run` invocation. -/
inductive RunOutcome
  | completed (returncode : Int)
  | timedOut
  | execFailed
deriving DecidableEq, Repr

/-! ## core/git_manager.py -/

/-- `DirectoryStatus`: classification of the target directory. -/
inductive DirectoryStatus
  | does_not_exist
  | git_repo
  | non_git
deriving DecidableEq, Repr

/-- `CommandResult`: result of a git command execution. -/
structure CommandResult where
  success : Bool
  returncode : Int
deriving DecidableEq, Repr

/-- The `GitError` exceptions raised by `GitManager`, distinguished by
which failure produced them (an explicit non-zero-exit raise, a caught
`TimeoutExpired`, or another caught exception re-wrapped by the generic
handler; the source nests the message in the last case but the exception
type is `GitError` in all three). -/
inductive GitExn
  | gitFailed
  | timeout
  | other
deriving DecidableEq, Repr

/-- Exceptions that escape a function with no `try/except` around its
`subprocess.run` call. -/
inductive UncaughtExn
  | timeoutExpired
  | osError
deriving DecidableEq, Repr

/-- `GitManager.check_directory_status`: `Absent` when the path does not
exist; otherwise run `git rev-parse --is-inside-work-tree` (modelled by
the `revParse` oracle). There is no `try/except` in the source, so a
timeout or execution failure of the check propagates to the caller. -/
def check_directory_status (pathExists : Bool) (revParse : RunOutcome) :
    Except UncaughtExn DirectoryStatus :=
  if !pathExists then .ok .does_not_exist
  else
    match revParse with
    | .completed rc => if rc = 0 then .ok .git_repo else .ok .non_git
    | .timedOut => .error .timeoutExpired
    | .execFailed => .error .osError

/-- The body of the line loop in `GitManager.fetch_branches`: skip empty
lines, keep lines of exactly two tab-separated fields, and apply
`ref.replace('refs/heads/', '')` (Python `str.replace` removes every
occurrence, not only a leading prefix). -/
def parseRefLine (line : String) : Option String :=
  if line = "" then none
  else
    match pySplit '\t' line with
    | [_, ref] => some (pyReplace "refs/heads/" "" ref)
    | _ => none

/-- `GitManager.fetch_branches`: run `git ls-remote --heads` (modelled by
the `run` oracle together with its captured `stdout`), fail with
`GitError` on non-zero exit, timeout, or execution failure, and otherwise
parse and sort the branch list. Python `sorted` is modelled by insertion
sort over Python's string comparison `strLeb`; since that order is
antisymmetric and total, the sorted arrangement is unique, so any correct
sorting algorithm computes the same list as CPython's mergesort. -/
def fetch_branches (run : RunOutcome) (stdout : String) : Except GitExn (List String) :=
  match run with
  | .completed rc =>
    if rc ≠ 0 then .error .gitFailed
    else
      .ok (List.insertionSort (fun a b => strLeb a b = true)
        ((pySplit '\n' (pyStrip stdout)).filterMap parseRefLine))
  | .timedOut => .error .timeout
  | .execFailed => .error .other

/-- `GitManager.clone_repository`: `git clone`, all-or-nothing. -/
def clone_repository (run : RunOutcome) : Except GitExn CommandResult :=
  match run with
  | .completed rc =>
    if rc ≠ 0 then .error .gitFailed else .ok { success := true, returncode := rc }
  | .timedOut => .error .timeout
  | .execFailed => .error .other

/-- The three `subprocess.run` invocations inside
`GitManager.change_remote`: `git remote set-url origin`, `git remote
prune origin`, `git fetch origin --prune`. -/
structure RemoteEnv where
  setUrlRun : RunOutcome
  pruneRun : RunOutcome
  fetchRun : RunOutcome
deriving DecidableEq, Repr

/-- `GitManager.change_remote`: set the origin URL (non-zero exit
raises), prune stale refs (its exit code is never inspected, but a raised
`TimeoutExpired` or execution failure propagates to the handlers at the
bottom of the `try`), then fetch with pruning (non-zero exit raises). -/
def change_remote (env : RemoteEnv) : Except GitExn CommandResult :=
  match env.setUrlRun with
  | .timedOut => .error .timeout
  | .execFailed => .error .other
  | .completed rc =>
    if rc ≠ 0 then .error .gitFailed
    else
      match env.pruneRun with
      | .timedOut => .error .timeout
      | .execFailed => .error .other
      | .completed _ =>
        match env.fetchRun with
        | .timedOut => .error .timeout
        | .execFailed => .error .other
        | .completed frc =>
          if frc ≠ 0 then .error .gitFailed else .ok { success := true, returncode := 0 }

/-- `GitManager.checkout_branch`: `git checkout -B branch origin/branch`. -/
def checkout_branch (run : RunOutcome) : Except GitExn CommandResult :=
  match run with
  | .completed rc =>
    if rc ≠ 0 then .error .gitFailed else .ok { success := true, returncode := rc }
  | .timedOut => .error .timeout
  | .execFailed => .error .other

/-- `GitManager.update_submodules`: `git submodule update --init --recursive`. -/
def update_submodules (run : RunOutcome) : Except GitExn CommandResult :=
  match run with
  | .completed rc =>
    if rc ≠ 0 then .error .gitFailed else .ok { success := true, returncode := rc }
  | .timedOut => .error .timeout
  | .execFailed => .error .other

/-- One status query: the subprocess outcome and its captured stdout. -/
structure QueryEnv where
  run : RunOutcome
  stdout : String
deriving DecidableEq, Repr

/-- `GitManager.get_current_branch`: total — the whole body is wrapped in
`try/except Exception: return None`, so every failure (non-zero exit,
timeout, execution failure) yields `none`. -/
def get_current_branch (env : QueryEnv) : Option String :=
  match env.run with
  | .completed rc => if rc = 0 then some (pyStrip env.stdout) else none
  | .timedOut => none
  | .execFailed => none

/-- `GitManager.get_current_remote`: total for the same reason; on a
zero-exit query of `remote.origin.url` the result is the normalized URL
when normalization succeeds and the raw URL otherwise (the source's
truthiness test `normalized if normalized else url` coincides with the
`none` test because `validate_and_normalize_url` never returns an empty
string). -/
def get_current_remote (env : QueryEnv) : Option String :=
  match env.run with
  | .completed rc =>
    if rc = 0 then
      let url := pyStrip env.stdout
      match validate_and_normalize_url url with
      | some normalized => some normalized
      | none => some url
    else none
  | .timedOut => none
  | .execFailed => none

/-! ## core/build_manager.py -/

/-- `BuildResult`: result of a build operation. -/
structure BuildResult where
  success : Bool
  returncode : Int
deriving DecidableEq, Repr

/-- The `BuildError` exceptions raised by `BuildManager.run_build`,
distinguished by their cause. -/
inductive BuildExn
  | scriptNotFound
  | notAFile
  | buildTimeout
  | invocationFailed
deriving DecidableEq, Repr

/-- `BuildManager.run_build`: check that the `build` entry point exists
and is a regular file (raising `BuildError` otherwise, before any
invocation), then run `./build sbitx`; a completed run returns
`BuildResult(success = (rc == 0), returncode = rc)` without raising,
while a timeout or execution failure raises `BuildError`. -/
def run_build (scriptExists scriptIsFile : Bool) (run : RunOutcome) :
    Except BuildExn BuildResult :=
  if !scriptExists then .error .scriptNotFound
  else if !scriptIsFile then .error .notAFile
  else
    match run with
    | .completed rc => .ok { success := rc == 0, returncode := rc }
    | .timedOut => .error .buildTimeout
    | .execFailed => .error .invocationFailed

/-! ## core/config_manager.py

The configuration is a JSON dictionary; keys the source reads through
`config.get(key, default)` are modelled as `Option` fields (`none` = key
missing). The `repositories` key is modelled as a plain list (the source
reads it only through `.get('repositories', [])`, so a missing key and an
empty list are indistinguishable; JSON-level malformed entries, skipped
by `Repository.from_dict`, are not modelled). Writes to a writable
filesystem are modelled as always succeeding. -/

/-- The parsed contents of `repositories.json`. -/
structure Config where
  repositories : List Repository
  default_repositories : Option (List String)
  last_used_repo : Option String
  last_used_branch : Option String
deriving DecidableEq, Repr

/-- What a stored file holds: JSON that parses to a configuration, or
corrupted bytes on which `json.load` raises `JSONDecodeError`. -/
inductive FileData
  | goodJson (c : Config)
  | badJson
deriving DecidableEq, Repr

/-- The slice of the filesystem the `ConfigManager` touches: the config
file `repositories.json` and its `.json.backup` sibling. -/
structure FS where
  configFile : Option FileData
  backupFile : Option FileData
deriving DecidableEq, Repr

/-- The `ConfigError` exceptions of `ConfigManager`. -/
inductive ConfigExn
  | corrupted
deriving DecidableEq, Repr

/-- The hard-coded protected URL `https://github.com/drexjj/sbitx.git`. -/
def sbitxUrl : String := "https://github.com/drexjj/sbitx.git"

/-- `ConfigManager.save_config`: full overwrite of the config file. -/
def save_config (c : Config) (fs : FS) : FS :=
  { fs with configFile := some (.goodJson c) }

/-- The configuration written by `ConfigManager._create_default_config`
(`datetime.now()` is passed in as `now`). -/
def default_config (now : String) : Config :=
  { repositories :=
      match create_new "drexjj/sbitx" now with
      | some r => [r]
      | none => []
    default_repositories := some [sbitxUrl]
    last_used_repo := some ""
    last_used_branch := some "" }

/-- `ConfigManager._create_default_config`: build the default
configuration and save it. -/
def create_default_config (now : String) (fs : FS) : Config × FS :=
  let c := default_config now
  (c, save_config c fs)

/-- `ConfigManager.load_config`: create a default configuration when the
file is missing; on a parse failure rename the file to the `.json.backup`
name and raise `ConfigError`; otherwise ensure the
`default_repositories` key exists (saving when it was added). -/
def load_config (now : String) (fs : FS) : Except ConfigExn Config × FS :=
  match fs.configFile with
  | none =>
    let (c, fs1) := create_default_config now fs
    (.ok c, fs1)
  | some .badJson =>
    (.error .corrupted, { fs with configFile := none, backupFile := some .badJson })
  | some (.goodJson c) =>
    match c.default_repositories with
    | none =>
      let c1 := { c with default_repositories := some [sbitxUrl] }
      (.ok c1, save_config c1 fs)
    | some _ => (.ok c, fs)

/-- `ConfigManager.load_repositories`: the `repositories` list of the
loaded configuration. -/
def load_repositories (now : String) (fs : FS) : Except ConfigExn (List Repository) × FS :=
  match load_config now fs with
  | (.error e, fs1) => (.error e, fs1)
  | (.ok c, fs1) => (.ok c.repositories, fs1)

/-- `ConfigManager.save_repositories`: reload the configuration, replace
its `repositories` list, and save. -/
def save_repositories (repos : List Repository) (now : String) (fs : FS) :
    Except ConfigExn Unit × FS :=
  match load_config now fs with
  | (.error e, fs1) => (.error e, fs1)
  | (.ok c, fs1) => (.ok (), save_config { c with repositories := repos } fs1)

/-- `ConfigManager.is_default_repository`: membership of the URL in the
loaded configuration's `default_repositories` list (read through
`.get('default_repositories', [])`). -/
def is_default_repository (url : String) (now : String) (fs : FS) :
    Except ConfigExn Bool × FS :=
  match load_config now fs with
  | (.error e, fs1) => (.error e, fs1)
  | (.ok c, fs1) => (.ok (url ∈ c.default_repositories.getD []), fs1)

/-- `ConfigManager.remove_repository`: refuse to remove a default
repository; otherwise filter it out of the list and save when something
was actually removed. -/
def remove_repository (url : String) (now : String) (fs : FS) :
    Except ConfigExn Bool × FS :=
  match is_default_repository url now fs with
  | (.error e, fs1) => (.error e, fs1)
  | (.ok true, fs1) => (.ok false, fs1)
  | (.ok false, fs1) =>
    match load_repositories now fs1 with
    | (.error e, fs2) => (.error e, fs2)
    | (.ok repos, fs2) =>
      let repos1 := repos.filter fun r => r.url ≠ url
      if repos1.length < repos.length then
        match save_repositories repos1 now fs2 with
        | (.error e, fs3) => (.error e, fs3)
        | (.ok _, fs3) => (.ok true, fs3)
      else (.ok false, fs2)

/-- `ConfigManager.set_last_used`: reload the configuration, set the
`last_used_repo` and `last_used_branch` keys, and save. -/
def set_last_used (repo_url branch_name : String) (now : String) (fs : FS) :
    Except ConfigExn Unit × FS :=
  match load_config now fs with
  | (.error e, fs1) => (.error e, fs1)
  | (.ok c, fs1) =>
    (.ok (),
     save_config
       { c with last_used_repo := some repo_url, last_used_branch := some branch_name } fs1)

/-! ## gui/main_window.py — the checkout-and-build orchestration thread -/

/-- The external mutating calls the orchestration thread can issue, in
the order they are attempted. -/
inductive ExtCall
  | cloneRepo
  | changeRemoteCall
  | checkoutCall
  | submodulesCall
  | buildCall
deriving DecidableEq, Repr

/-- The terminal message the thread puts on the task queue, distinguished
by the branch of `_checkout_and_build_thread` that produced it. -/
inductive ThreadOutcome
  | errForeignDir
  | errGit
  | errBuild
  | errUnexpected
  | buildFailed (returncode : Int)
  | buildSuccess
deriving DecidableEq, Repr

/-- The oracle for every external command one orchestration run may
invoke. -/
structure ThreadEnv where
  cloneRun : RunOutcome
  remoteEnv : RemoteEnv
  checkoutRun : RunOutcome
  submoduleRun : RunOutcome
  buildScriptExists : Bool
  buildScriptIsFile : Bool
  buildRun : RunOutcome
deriving DecidableEq, Repr

/-- The tail of `_checkout_and_build_thread` after the clone-or-rewire
step: checkout, submodule update, build, and on a successful build the
`set_last_used` persistence call. A `GitError` maps to the `('error',
"Git error: ...")` message, a `BuildError` to `('error', "Build error:
...")`, and a `ConfigError` escaping `set_last_used` is caught by the
generic `except Exception` handler (`('error', "Unexpected error:
...")`). `firstCalls` is the already-issued clone-or-rewire call. -/
def runAfterRemote (firstCalls : List ExtCall) (env : ThreadEnv)
    (repoUrl branch now : String) (fs : FS) : List ExtCall × ThreadOutcome × FS :=
  match checkout_branch env.checkoutRun with
  | .error _ => (firstCalls ++ [.checkoutCall], .errGit, fs)
  | .ok _ =>
    match update_submodules env.submoduleRun with
    | .error _ => (firstCalls ++ [.checkoutCall, .submodulesCall], .errGit, fs)
    | .ok _ =>
      match run_build env.buildScriptExists env.buildScriptIsFile env.buildRun with
      | .error _ =>
        (firstCalls ++ [.checkoutCall, .submodulesCall, .buildCall], .errBuild, fs)
      | .ok br =>
        if br.success then
          match set_last_used repoUrl branch now fs with
          | (.ok _, fs1) =>
            (firstCalls ++ [.checkoutCall, .submodulesCall, .buildCall], .buildSuccess, fs1)
          | (.error _, fs1) =>
            (firstCalls ++ [.checkoutCall, .submodulesCall, .buildCall], .errUnexpected, fs1)
        else
          (firstCalls ++ [.checkoutCall, .submodulesCall, .buildCall],
           .buildFailed br.returncode, fs)

/-- `MainWindow._checkout_and_build_thread`, given the result of the
directory probe: a foreign non-git directory aborts with the
configuration message before any external mutating call; an absent
directory is cloned into; an existing git directory has its remote
rewired; then checkout, submodule update and build run in sequence. The
returned trace lists the external mutating calls in the order they were
issued (a call that was issued and failed is in the trace). -/
def checkout_and_build_thread (status : DirectoryStatus) (env : ThreadEnv)
    (repoUrl branch now : String) (fs : FS) : List ExtCall × ThreadOutcome × FS :=
  match status with
  | .non_git => ([], .errForeignDir, fs)
  | .does_not_exist =>
    match clone_repository env.cloneRun with
    | .error _ => ([.cloneRepo], .errGit, fs)
    | .ok _ => runAfterRemote [.cloneRepo] env repoUrl branch now fs
  | .git_repo =>
    match change_remote env.remoteEnv with
    | .error _ => ([.changeRemoteCall], .errGit, fs)
    | .ok _ => runAfterRemote [.changeRemoteCall] env repoUrl branch now fs

/-! ## Spec-side refinement definitions

Definitions in this block follow the words of the specification (not the
source); they exist only to be compared with the source-derived
definitions above. -/

/-- Modelled from the spec: "the `refs/heads/` namespace prefix is
stripped from each name" — remove one leading `refs/heads/` and nothing
else. -/
def stripHeadsNamespace (ref : String) : String :=
  match dropPfx ['r', 'e', 'f', 's', '/', 'h', 'e', 'a', 'd', 's', '/'] ref.data with
  | some rest => ⟨rest⟩
  | none => ref

/-- The line parser as the specification words it: like `parseRefLine`
but stripping only a leading `refs/heads/`. -/
def parseRefLineSpec (line : String) : Option String :=
  if line = "" then none
  else
    match pySplit '\t' line with
    | [_, ref] => some (stripHeadsNamespace ref)
    | _ => none

/-- `fetch_branches` as the specification words it (prefix-stripping). -/
def fetch_branches_spec (run : RunOutcome) (stdout : String) : Except GitExn (List String) :=
  match run with
  | .completed rc =>
    if rc ≠ 0 then .error .gitFailed
    else
      .ok (List.insertionSort (fun a b => strLeb a b = true)
        ((pySplit '\n' (pyStrip stdout)).filterMap parseRefLineSpec))
  | .timedOut => .error .timeout
  | .execFailed => .error .other

/-! ## Helper lemmas -/

theorem lexLe_iff : ∀ as bs : List Char, lexLe as bs = true ↔ ¬ List.Lex (· < ·) bs as := by
  intro as
  induction as with
  | nil =>
    intro bs
    simp only [lexLe, true_iff]
    intro h
    cases h
  | cons a as ih =>
    intro bs
    cases bs with
    | nil =>
      apply iff_of_false
      · simp [lexLe]
      · exact not_not_intro (List.Lex.nil)
    | cons b bs =>
      simp only [lexLe]
      by_cases hab : a = b
      · subst hab
        rw [if_pos rfl, ih]
        constructor
        · intro h hl
          cases hl with
          | cons h1 => exact h h1
          | rel h1 => exact absurd h1 (lt_irrefl a)
        · intro h hl
          exact h (List.Lex.cons hl)
      · simp only [if_neg hab, decide_eq_true_eq]
        constructor
        · intro hlt hl
          cases hl with
          | cons _ => exact hab rfl
          | rel h1 => exact absurd hlt (asymm h1)
        · intro h
          rcases lt_trichotomy a b with h1 | h1 | h1
          · exact h1
          · exact absurd h1 hab
          · exact absurd (List.Lex.rel h1) h

theorem strLeb_iff (a b : String) : strLeb a b = true ↔ a ≤ b := by
  rw [String.le_iff_toList_le]
  show lexLe a.data b.data = true ↔ a.data ≤ b.data
  rw [lexLe_iff]
  have hlt : List.Lex (· < ·) b.data a.data = (b.data < a.data) := rfl
  rw [hlt]
  exact not_lt

instance strLebIsTotal : IsTotal String fun a b => strLeb a b = true :=
  ⟨fun a b => by
    rcases le_total a b with h | h
    · exact Or.inl ((strLeb_iff a b).mpr h)
    · exact Or.inr ((strLeb_iff b a).mpr h)⟩

instance strLebIsTrans : IsTrans String fun a b => strLeb a b = true :=
  ⟨fun a b c hab hbc =>
    (strLeb_iff a c).mpr (le_trans ((strLeb_iff a b).mp hab) ((strLeb_iff b c).mp hbc))⟩

theorem hasPfx_exists {p l : List Char} (h : hasPfx p l = true) : ∃ r, l = p ++ r := by
  induction p generalizing l with
  | nil => exact ⟨l, rfl⟩
  | cons a ps ih =>
    cases l with
    | nil => simp [hasPfx] at h
    | cons c cs =>
      simp only [hasPfx, Bool.and_eq_true, beq_iff_eq] at h
      obtain ⟨rfl, h2⟩ := h
      obtain ⟨r, rfl⟩ := ih h2
      exact ⟨r, rfl⟩

theorem hasPfx_append (p r : List Char) : hasPfx p (p ++ r) = true := by
  induction p with
  | nil => rfl
  | cons a ps ih => simp [hasPfx, ih]

theorem dropPfx_append (p r : List Char) : dropPfx p (p ++ r) = some r := by
  induction p with
  | nil => rfl
  | cons a ps ih => simp [dropPfx, ih]

theorem dropPfx_eq_some {p u r : List Char} (h : dropPfx p u = some r) : u = p ++ r := by
  induction p generalizing u with
  | nil =>
    simp only [dropPfx, Option.some_inj] at h
    simpa using h
  | cons a ps ih =>
    cases u with
    | nil => simp [dropPfx] at h
    | cons c cs =>
      simp only [dropPfx] at h
      split at h
      · next heq =>
        obtain rfl := eq_of_beq heq
        rw [ih h]
        rfl
      · exact absurd h (by simp)

theorem endsWithL_append (t s : List Char) : endsWithL (t ++ s) s = true := by
  unfold endsWithL
  rw [List.reverse_append]
  exact hasPfx_append _ _

theorem endsWithL_exists {l s : List Char} (h : endsWithL l s = true) : ∃ t, l = t ++ s := by
  obtain ⟨r, hr⟩ := hasPfx_exists h
  refine ⟨r.reverse, ?_⟩
  have h2 := congrArg List.reverse hr
  simpa using h2

theorem stripDotGit_append (t : List Char) : stripDotGit (t ++ gitSufL) = t := by
  unfold stripDotGit
  rw [if_pos (endsWithL_append t gitSufL)]
  have hlen : (t ++ gitSufL).length = t.length + 4 := by simp [gitSufL]
  rw [hlen, Nat.add_sub_cancel]
  exact List.take_left t gitSufL

theorem pyStripL_fix {c : Char} {rest t u : List Char} (hc : isPySpace c = false)
    (h1 : u = c :: rest) (h2 : u = t ++ gitSufL) : pyStripL u = u := by
  unfold pyStripL
  have hd : u.dropWhile isPySpace = u := by
    rw [h1, List.dropWhile_cons, hc]
    simp
  rw [hd]
  have hr : u.reverse = 't' :: ('i' :: 'g' :: '.' :: t.reverse) := by
    rw [h2, List.reverse_append]
    simp [gitSufL]
  rw [hr, List.dropWhile_cons]
  have ht : isPySpace 't' = false := by decide
  rw [ht]
  simp only [Bool.false_eq_true, if_false]
  rw [← hr, List.reverse_reverse]

theorem matchHttps_inv {u base : List Char} (h : matchHttps u = some base) :
    ownerRepoB base = true := by
  unfold matchHttps at h
  cases hd : dropPfx httpsPfxL u with
  | none => simp [hd] at h
  | some rest =>
    simp only [hd] at h
    split at h
    · next ho =>
      obtain rfl := Option.some_inj.mp h
      exact ho
    · exact absurd h (by simp)

theorem matchSsh_inv {u base : List Char} (h : matchSsh u = some base) :
    ∃ rest, dropPfx sshPfxL u = some rest ∧ base = stripDotGit rest ∧ ownerRepoB base = true := by
  unfold matchSsh at h
  cases hd : dropPfx sshPfxL u with
  | none => simp [hd] at h
  | some rest =>
    simp only [hd] at h
    split at h
    · next ho =>
      obtain rfl := Option.some_inj.mp h
      exact ⟨rest, rfl, rfl, ho⟩
    · exact absurd h (by simp)

theorem matchShort_inv {u r : List Char} (h : matchShort u = some r) :
    ownerRepoB r = true := by
  unfold matchShort at h
  cases hd : dropPfx ghPfxL u with
  | none =>
    simp only [hd] at h
    split at h
    · next ho =>
      obtain rfl := Option.some_inj.mp h
      exact ho
    · exact absurd h (by simp)
  | some rest =>
    simp only [hd] at h
    split at h
    · next ho =>
      obtain rfl := Option.some_inj.mp h
      exact ho
    · exact absurd h (by simp)

theorem matchHttps_sshPfx (w : List Char) : matchHttps (sshPfxL ++ w) = none := by
  have hchar : ('h' == 'g') = false := by decide
  have hd : dropPfx httpsPfxL (sshPfxL ++ w) = none := by
    show dropPfx ('h' :: _) ('g' :: _) = none
    simp [dropPfx, hchar]
  unfold matchHttps
  rw [hd]

theorem normStripped_cases {u m : List Char} (h : normStripped u = some m) :
    (∃ base, matchHttps u = some base ∧ m = httpsPfxL ++ base ++ gitSufL) ∨
    (matchHttps u = none ∧ (∃ base, matchSsh u = some base) ∧
      m = (if endsWithL u gitSufL then u else u ++ gitSufL)) ∨
    (matchHttps u = none ∧ matchSsh u = none ∧
      ∃ r, matchShort u = some r ∧ m = httpsPfxL ++ r ++ gitSufL) := by
  unfold normStripped at h
  cases hh : matchHttps u with
  | some base =>
    simp only [hh] at h
    exact Or.inl ⟨base, rfl, (Option.some_inj.mp h).symm⟩
  | none =>
    simp only [hh] at h
    cases hs : matchSsh u with
    | some base =>
      simp only [hs] at h
      exact Or.inr (Or.inl ⟨rfl, ⟨base, rfl⟩, (Option.some_inj.mp h).symm⟩)
    | none =>
      simp only [hs] at h
      cases ht : matchShort u with
      | some r =>
        simp only [ht] at h
        exact Or.inr (Or.inr ⟨rfl, rfl, r, rfl, (Option.some_inj.mp h).symm⟩)
      | none => simp [ht] at h

theorem pyStripL_https_form (base : List Char) :
    pyStripL (httpsPfxL ++ base ++ gitSufL) = httpsPfxL ++ base ++ gitSufL := by
  exact @pyStripL_fix 'h'
    (['t', 't', 'p', 's', ':', '/', '/', 'g', 'i', 't', 'h', 'u', 'b', '.', 'c', 'o', 'm', '/'] ++ base ++ gitSufL)
    (httpsPfxL ++ base) (httpsPfxL ++ base ++ gitSufL) (by decide) rfl rfl

theorem matchHttps_https_form (base : List Char) (hb : ownerRepoB base = true) :
    matchHttps (httpsPfxL ++ base ++ gitSufL) = some base := by
  unfold matchHttps
  rw [List.append_assoc, dropPfx_append]
  simp [stripDotGit_append, hb]

theorem normalizeL_https_form (base : List Char) (hb : ownerRepoB base = true) :
    normalizeL (httpsPfxL ++ base ++ gitSufL) = some (httpsPfxL ++ base ++ gitSufL) := by
  unfold normalizeL
  rw [pyStripL_https_form]
  unfold normStripped
  rw [matchHttps_https_form base hb]

theorem pyStripL_ssh_form {u t w : List Char} (hu : u = sshPfxL ++ w)
    (hg : u = t ++ gitSufL) : pyStripL u = u := by
  refine @pyStripL_fix 'g'
    (['i', 't', '@', 'g', 'i', 't', 'h', 'u', 'b', '.', 'c', 'o', 'm', ':'] ++ w)
    t u (by decide) ?_ hg
  rw [hu]
  rfl

theorem matchSsh_ssh_git_form {rest : List Char} (hb : ownerRepoB rest = true) :
    matchSsh (sshPfxL ++ (rest ++ gitSufL)) = some rest := by
  unfold matchSsh
  rw [dropPfx_append]
  simp [stripDotGit_append, hb]

theorem normStripped_idem {u m : List Char} (h : normStripped u = some m) :
    pyStripL m = m ∧ normStripped m = some m := by
  rcases normStripped_cases h with ⟨base, hh, rfl⟩ | ⟨hh, ⟨base, hs⟩, hm⟩ |
    ⟨hh, hs, r, ht, rfl⟩
  · -- HTTPS branch: the output is httpsPfxL ++ base ++ gitSufL
    have hb := matchHttps_inv hh
    refine ⟨pyStripL_https_form base, ?_⟩
    unfold normStripped
    rw [matchHttps_https_form base hb]
  · -- SSH branch
    obtain ⟨rest, hd, hbase, hb⟩ := matchSsh_inv hs
    have hu : u = sshPfxL ++ rest := dropPfx_eq_some hd
    by_cases hend : endsWithL u gitSufL = true
    · -- the stripped input already ends in .git: the output is u itself
      rw [if_pos hend] at hm
      subst hm
      obtain ⟨t, hg⟩ := endsWithL_exists hend
      refine ⟨pyStripL_ssh_form hu hg, ?_⟩
      unfold normStripped
      rw [hh, hs, if_pos hend]
    · -- .git is appended to the stripped input
      rw [if_neg hend] at hm
      subst hm
      have hrend : endsWithL rest gitSufL = false := by
        by_contra hc
        rw [Bool.not_eq_false] at hc
        obtain ⟨t, rfl⟩ := endsWithL_exists hc
        have : endsWithL u gitSufL = true := by
          rw [hu, ← List.append_assoc]
          exact endsWithL_append _ _
        exact hend this
      have hbrest : ownerRepoB rest = true := by
        have : stripDotGit rest = rest := by
          unfold stripDotGit
          rw [hrend]
          simp
        rw [hbase, this] at hb
        exact hb
      have hm2 : u ++ gitSufL = sshPfxL ++ (rest ++ gitSufL) := by
        rw [hu, List.append_assoc]
      refine ⟨pyStripL_ssh_form hm2 rfl, ?_⟩
      unfold normStripped
      rw [hm2, matchHttps_sshPfx, matchSsh_ssh_git_form hbrest]
      have hend2 : endsWithL (sshPfxL ++ (rest ++ gitSufL)) gitSufL = true := by
        rw [← List.append_assoc]
        exact endsWithL_append _ _
      rw [if_pos hend2]
  · -- short branch: the output is httpsPfxL ++ r ++ gitSufL
    have hb := matchShort_inv ht
    refine ⟨pyStripL_https_form r, ?_⟩
    unfold normStripped
    rw [matchHttps_https_form r hb]

theorem normalizeL_idem {x m : List Char} (h : normalizeL x = some m) :
    normalizeL m = some m := by
  unfold normalizeL at h ⊢
  obtain ⟨hstrip, hagain⟩ := normStripped_idem h
  rw [hstrip]
  exact hagain

/-! ## Claim theorems -/

/-- C7: for every input string the normalizer accepts, normalization is
idempotent: `normalize (normalize x) = normalize x`. -/
theorem c7_normalize_idempotent (x y : String)
    (h : validate_and_normalize_url x = some y) :
    validate_and_normalize_url y = some y := by
  unfold validate_and_normalize_url at h ⊢
  obtain ⟨m, hm, hy⟩ := Option.map_eq_some'.mp h
  subst hy
  have hd : (String.mk m).data = m := rfl
  rw [hd, normalizeL_idem hm]
  rfl

/-- Witness for C7: the normalizer accepts "octo/cat", and its output is
a fixed point of normalization. -/
theorem c7_normalize_idempotent_witness :
    validate_and_normalize_url "https://github.com/octo/cat.git" =
      some "https://github.com/octo/cat.git" :=
  c7_normalize_idempotent "octo/cat" "https://github.com/octo/cat.git" (by decide)

/-- C3 counterexample: the probe can raise. When the target path exists
and the `git rev-parse --is-inside-work-tree` check times out, the
uncaught `TimeoutExpired` propagates instead of yielding `NON_GIT`. -/
theorem c3_counterexample :
    check_directory_status true RunOutcome.timedOut = Except.error UncaughtExn.timeoutExpired ∧
    (check_directory_status true RunOutcome.timedOut).toOption = none := by
  decide

/-- C3 (amended): the probe returns `Absent` exactly when the path does
not exist; when the working-tree check completes, a zero exit yields
`VersionControlled` and any other exit yields `ForeignNonVCS`; but a
timeout or execution failure of the check propagates as an exception. -/
theorem c3_probe_characterization (pathExists : Bool) (rp : RunOutcome) :
    (check_directory_status pathExists rp = Except.ok DirectoryStatus.does_not_exist ↔
      pathExists = false) ∧
    (∀ rc : Int, pathExists = true → rp = RunOutcome.completed rc →
      check_directory_status pathExists rp =
        Except.ok (if rc = 0 then DirectoryStatus.git_repo else DirectoryStatus.non_git)) ∧
    (pathExists = true → rp = RunOutcome.timedOut →
      check_directory_status pathExists rp = Except.error UncaughtExn.timeoutExpired) ∧
    (pathExists = true → rp = RunOutcome.execFailed →
      check_directory_status pathExists rp = Except.error UncaughtExn.osError) := by
  cases pathExists <;> rcases rp with rc | _ | _ <;>
    simp only [check_directory_status, Bool.not_true, Bool.not_false, if_true, if_false] <;>
    try simp
  by_cases hrc : rc = 0 <;> simp [hrc]

/-- Witness for C3 (amended) at concrete probe inputs. -/
theorem c3_probe_characterization_witness :
    check_directory_status false RunOutcome.execFailed =
      Except.ok DirectoryStatus.does_not_exist ∧
    check_directory_status true (RunOutcome.completed 7) = Except.ok DirectoryStatus.non_git ∧
    check_directory_status true RunOutcome.timedOut =
      Except.error UncaughtExn.timeoutExpired := by
  refine ⟨(c3_probe_characterization false RunOutcome.execFailed).1.mpr rfl, ?_, ?_⟩
  · have h := (c3_probe_characterization true (RunOutcome.completed 7)).2.1 7 rfl rfl
    simpa using h
  · exact (c3_probe_characterization true RunOutcome.timedOut).2.2.1 rfl rfl

/-- C4 counterexample: a prune failure is not always non-fatal. With the
set-url step succeeding, the prune step timing out, and the fetch step
set to succeed, `change_remote` aborts with `GitError` instead of
continuing to a successful result. -/
theorem c4_counterexample :
    change_remote
      { setUrlRun := RunOutcome.completed 0, pruneRun := RunOutcome.timedOut,
        fetchRun := RunOutcome.completed 0 } = Except.error GitExn.timeout ∧
    (change_remote
      { setUrlRun := RunOutcome.completed 0, pruneRun := RunOutcome.timedOut,
        fetchRun := RunOutcome.completed 0 }).toOption = none := by
  decide

/-- C4 (amended): in `change_remote`, any failure of the set-url step
(non-zero exit, timeout, or execution failure) aborts with `GitError`; a
prune step that completes is non-fatal regardless of its exit code (the
code is never inspected), but a prune timeout or execution failure aborts
with `GitError`; any fetch failure aborts with `GitError`; and a fully
successful sequence returns success. -/
theorem c4_change_remote_characterization (e : RemoteEnv) :
    (∀ rc : Int, e.setUrlRun = RunOutcome.completed rc → rc ≠ 0 →
      change_remote e = Except.error GitExn.gitFailed) ∧
    (e.setUrlRun = RunOutcome.timedOut → change_remote e = Except.error GitExn.timeout) ∧
    (e.setUrlRun = RunOutcome.execFailed → change_remote e = Except.error GitExn.other) ∧
    (∀ rc rc2 : Int,
      change_remote { e with pruneRun := RunOutcome.completed rc } =
        change_remote { e with pruneRun := RunOutcome.completed rc2 }) ∧
    (e.setUrlRun = RunOutcome.completed 0 → e.pruneRun = RunOutcome.timedOut →
      change_remote e = Except.error GitExn.timeout) ∧
    (e.setUrlRun = RunOutcome.completed 0 → e.pruneRun = RunOutcome.execFailed →
      change_remote e = Except.error GitExn.other) ∧
    (∀ prc : Int, e.setUrlRun = RunOutcome.completed 0 → e.pruneRun = RunOutcome.completed prc →
      (e.fetchRun = RunOutcome.timedOut → change_remote e = Except.error GitExn.timeout) ∧
      (e.fetchRun = RunOutcome.execFailed → change_remote e = Except.error GitExn.other) ∧
      (∀ frc : Int, e.fetchRun = RunOutcome.completed frc → frc ≠ 0 →
        change_remote e = Except.error GitExn.gitFailed) ∧
      (e.fetchRun = RunOutcome.completed 0 →
        change_remote e = Except.ok { success := true, returncode := 0 })) := by
  refine ⟨?_, ?_, ?_, ?_, ?_, ?_, ?_⟩
  · intro rc h hrc
    simp [change_remote, h, hrc]
  · intro h
    simp [change_remote, h]
  · intro h
    simp [change_remote, h]
  · intro rc rc2
    rcases hsu : e.setUrlRun with src | _ | _ <;> simp [change_remote, hsu]
  · intro h1 h2
    simp [change_remote, h1, h2]
  · intro h1 h2
    simp [change_remote, h1, h2]
  · intro prc h1 h2
    refine ⟨?_, ?_, ?_, ?_⟩
    · intro h3
      simp [change_remote, h1, h2, h3]
    · intro h3
      simp [change_remote, h1, h2, h3]
    · intro frc h3 hfrc
      simp [change_remote, h1, h2, h3, hfrc]
    · intro h3
      simp [change_remote, h1, h2, h3]

/-- Witness for C4 (amended) at concrete sub-step outcomes. -/
theorem c4_change_remote_characterization_witness :
    change_remote
      { setUrlRun := RunOutcome.completed 1, pruneRun := RunOutcome.completed 0,
        fetchRun := RunOutcome.completed 0 } = Except.error GitExn.gitFailed ∧
    change_remote
      { setUrlRun := RunOutcome.completed 0, pruneRun := RunOutcome.completed 5,
        fetchRun := RunOutcome.completed 0 } =
      change_remote
        { setUrlRun := RunOutcome.completed 0, pruneRun := RunOutcome.completed 0,
          fetchRun := RunOutcome.completed 0 } ∧
    change_remote
      { setUrlRun := RunOutcome.completed 0, pruneRun := RunOutcome.completed 0,
        fetchRun := RunOutcome.completed 0 } =
      Except.ok { success := true, returncode := 0 } := by
  refine ⟨?_, ?_, ?_⟩
  · exact (c4_change_remote_characterization
      { setUrlRun := RunOutcome.completed 1, pruneRun := RunOutcome.completed 0,
        fetchRun := RunOutcome.completed 0 }).1 1 rfl (by decide)
  · exact (c4_change_remote_characterization
      { setUrlRun := RunOutcome.completed 0, pruneRun := RunOutcome.completed 5,
        fetchRun := RunOutcome.completed 0 }).2.2.2.1 5 0
  · exact ((c4_change_remote_characterization
      { setUrlRun := RunOutcome.completed 0, pruneRun := RunOutcome.completed 0,
        fetchRun := RunOutcome.completed 0 }).2.2.2.2.2.2 0 rfl rfl).2.2.2 rfl

/-- C5: `run_build` raises a configuration-style `BuildError` before any
invocation when the build entry point is missing or not a regular file; a
build that runs and exits non-zero returns `succeeded = false` with the
exit code preserved, without raising; a zero exit returns success; and
only invocation failure (timeout, failure to execute) raises. -/
theorem c5_run_build_characterization (ex isf : Bool) (run : RunOutcome) :
    (ex = false → run_build ex isf run = Except.error BuildExn.scriptNotFound) ∧
    (ex = true → isf = false → run_build ex isf run = Except.error BuildExn.notAFile) ∧
    (∀ rc : Int, ex = true → isf = true → run = RunOutcome.completed rc → rc ≠ 0 →
      run_build ex isf run = Except.ok { success := false, returncode := rc }) ∧
    (ex = true → isf = true → run = RunOutcome.completed 0 →
      run_build ex isf run = Except.ok { success := true, returncode := 0 }) ∧
    (ex = true → isf = true → run = RunOutcome.timedOut →
      run_build ex isf run = Except.error BuildExn.buildTimeout) ∧
    (ex = true → isf = true → run = RunOutcome.execFailed →
      run_build ex isf run = Except.error BuildExn.invocationFailed) := by
  refine ⟨?_, ?_, ?_, ?_, ?_, ?_⟩
  · intro h
    simp [run_build, h]
  · intro h1 h2
    simp [run_build, h1, h2]
  · intro rc h1 h2 h3 hrc
    simp [run_build, h1, h2, h3, hrc]
  · intro h1 h2 h3
    simp [run_build, h1, h2, h3]
  · intro h1 h2 h3
    simp [run_build, h1, h2, h3]
  · intro h1 h2 h3
    simp [run_build, h1, h2, h3]

/-- Witness for C5 at concrete build inputs. -/
theorem c5_run_build_characterization_witness :
    run_build false true (RunOutcome.completed 0) = Except.error BuildExn.scriptNotFound ∧
    run_build true true (RunOutcome.completed 2) =
      Except.ok { success := false, returncode := 2 } ∧
    run_build true true (RunOutcome.completed 0) =
      Except.ok { success := true, returncode := 0 } ∧
    run_build true true RunOutcome.timedOut = Except.error BuildExn.buildTimeout := by
  refine ⟨?_, ?_, ?_, ?_⟩
  · exact (c5_run_build_characterization false true (RunOutcome.completed 0)).1 rfl
  · exact (c5_run_build_characterization true true
      (RunOutcome.completed 2)).2.2.1 2 rfl rfl rfl (by decide)
  · exact (c5_run_build_characterization true true
      (RunOutcome.completed 0)).2.2.2.1 rfl rfl rfl
  · exact (c5_run_build_characterization true true
      RunOutcome.timedOut).2.2.2.2.1 rfl rfl rfl

/-- C6 counterexample: the code removes every occurrence of
`refs/heads/` from a ref (Python `str.replace`), not only the leading
namespace prefix. For a branch literally named `refs/heads/x` (legal in
git), the listing line `abc\trefs/heads/refs/heads/x` yields `["x"]`,
while prefix-stripping as the claim states would yield
`["refs/heads/x"]`. -/
theorem c6_counterexample :
    fetch_branches (RunOutcome.completed 0) "abc\trefs/heads/refs/heads/x" =
      Except.ok ["x"] ∧
    fetch_branches_spec (RunOutcome.completed 0) "abc\trefs/heads/refs/heads/x" =
      Except.ok ["refs/heads/x"] ∧
    fetch_branches (RunOutcome.completed 0) "abc\trefs/heads/refs/heads/x" ≠
      fetch_branches_spec (RunOutcome.completed 0) "abc\trefs/heads/refs/heads/x" := by
  refine ⟨by decide, by decide, by decide⟩

/-- C6 (amended): `fetch_branches` returns the parsed branch names in
lexicographic order regardless of the order in the tool output, removing
every occurrence of `refs/heads/` from each ref (which equals stripping
the namespace prefix whenever `refs/heads/` does not also occur inside
the branch name); a remote with zero branches yields an empty list, not
an error; duplicates are preserved; and the output
`"abc123\trefs/heads/main\ndef456\trefs/heads/dev"` yields
`["dev", "main"]`. -/
theorem c6_fetch_branches_characterization :
    (∀ stdout bs, fetch_branches (RunOutcome.completed 0) stdout = Except.ok bs →
      List.Sorted (· ≤ ·) bs) ∧
    fetch_branches (RunOutcome.completed 0) "" = Except.ok [] ∧
    fetch_branches (RunOutcome.completed 0)
      "abc123\trefs/heads/main\ndef456\trefs/heads/dev" = Except.ok ["dev", "main"] ∧
    fetch_branches (RunOutcome.completed 0) "b\trefs/heads/z\na\trefs/heads/z" =
      Except.ok ["z", "z"] := by
  refine ⟨?_, by decide, by decide, by decide⟩
  intro stdout bs h
  unfold fetch_branches at h
  simp only [ne_eq, not_true_eq_false, if_false, Option.some_inj] at h
  have hbs : bs = List.insertionSort (fun a b => strLeb a b = true)
      ((pySplit '\n' (pyStrip stdout)).filterMap parseRefLine) := by
    have h2 := h
    simp at h2
    exact h2.symm
  subst hbs
  exact (List.sorted_insertionSort (fun a b => strLeb a b = true) _).imp
    fun hab => (strLeb_iff _ _).mp hab

/-- Witness for C6 (amended): the sortedness statement applied at a
concrete out-of-order listing. -/
theorem c6_fetch_branches_characterization_witness :
    fetch_branches (RunOutcome.completed 0) "h1\trefs/heads/q\nh2\trefs/heads/p" =
      Except.ok ["p", "q"] ∧
    List.Sorted (· ≤ ·) ["p", "q"] :=
  ⟨by decide,
   c6_fetch_branches_characterization.1 "h1\trefs/heads/q\nh2\trefs/heads/p" ["p", "q"]
     (by decide)⟩

/-- C10: the current-checkout status getters are total. Modelled as total
functions into `Option` (the source wraps each whole body in
`try/except Exception: return None`), every failing query — non-zero
exit, timeout, or failure to execute — yields `none`; a zero-exit query
yields the stripped stdout, and `get_current_remote` returns the
normalized URL when normalization succeeds and the raw URL otherwise. -/
theorem c10_status_getters_total (env : QueryEnv) :
    (∀ rc : Int, env.run = RunOutcome.completed rc → rc ≠ 0 →
      get_current_branch env = none ∧ get_current_remote env = none) ∧
    (env.run = RunOutcome.timedOut →
      get_current_branch env = none ∧ get_current_remote env = none) ∧
    (env.run = RunOutcome.execFailed →
      get_current_branch env = none ∧ get_current_remote env = none) ∧
    (env.run = RunOutcome.completed 0 →
      get_current_branch env = some (pyStrip env.stdout) ∧
      (∀ n, validate_and_normalize_url (pyStrip env.stdout) = some n →
        get_current_remote env = some n) ∧
      (validate_and_normalize_url (pyStrip env.stdout) = none →
        get_current_remote env = some (pyStrip env.stdout))) := by
  refine ⟨?_, ?_, ?_, ?_⟩
  · intro rc h hrc
    constructor <;> simp [get_current_branch, get_current_remote, h, hrc]
  · intro h
    constructor <;> simp [get_current_branch, get_current_remote, h]
  · intro h
    constructor <;> simp [get_current_branch, get_current_remote, h]
  · intro h
    refine ⟨by simp [get_current_branch, h], ?_, ?_⟩
    · intro n hn
      simp [get_current_remote, h, hn]
    · intro hn
      simp [get_current_remote, h, hn]

/-- Witness for C10 at concrete query outcomes. -/
theorem c10_status_getters_total_witness :
    get_current_branch { run := RunOutcome.timedOut, stdout := "" } = none ∧
    get_current_remote { run := RunOutcome.completed 1, stdout := "x" } = none ∧
    get_current_branch { run := RunOutcome.completed 0, stdout := "main\n" } = some "main" ∧
    get_current_remote { run := RunOutcome.completed 0, stdout := "octo/cat\n" } =
      some "https://github.com/octo/cat.git" ∧
    get_current_remote { run := RunOutcome.completed 0, stdout := "not a url" } =
      some "not a url" := by
  refine ⟨?_, ?_, ?_, ?_, ?_⟩
  · exact ((c10_status_getters_total { run := RunOutcome.timedOut, stdout := "" }).2.1 rfl).1
  · exact ((c10_status_getters_total
      { run := RunOutcome.completed 1, stdout := "x" }).1 1 rfl (by decide)).2
  · have h := ((c10_status_getters_total
      { run := RunOutcome.completed 0, stdout := "main\n" }).2.2.2 rfl).1
    rw [h]
    decide
  · have h := ((c10_status_getters_total
      { run := RunOutcome.completed 0, stdout := "octo/cat\n" }).2.2.2 rfl).2.1
      "https://github.com/octo/cat.git" (by decide)
    exact h
  · have h := ((c10_status_getters_total
      { run := RunOutcome.completed 0, stdout := "not a url" }).2.2.2 rfl).2.2 (by decide)
    rw [h]
    decide

theorem runAfterRemote_calls_shape (firstCalls : List ExtCall) (env : ThreadEnv)
    (repoUrl branch now : String) (fs : FS) :
    (runAfterRemote firstCalls env repoUrl branch now fs).1 =
        firstCalls ++ [ExtCall.checkoutCall] ∨
    (runAfterRemote firstCalls env repoUrl branch now fs).1 =
        firstCalls ++ [ExtCall.checkoutCall, ExtCall.submodulesCall] ∨
    (runAfterRemote firstCalls env repoUrl branch now fs).1 =
        firstCalls ++ [ExtCall.checkoutCall, ExtCall.submodulesCall, ExtCall.buildCall] := by
  unfold runAfterRemote
  repeat' split
  all_goals simp

/-- C1: the operation invoked after the directory probe is determined by
the probe result alone. Probe `Absent` (`DOES_NOT_EXIST`): the first
external mutating call is clone and rewire is never called. Probe
`VersionControlled` (`GIT_REPO`): clone is never called. Probe
`ForeignNonVCS` (`NON_GIT`): the run issues zero external mutating calls,
leaves the persisted state untouched, and terminates with the
foreign-directory configuration error. -/
theorem c1_orchestrator_probe_dispatch (env : ThreadEnv) (repoUrl branch now : String) (fs : FS) :
    ((checkout_and_build_thread DirectoryStatus.does_not_exist env repoUrl branch now fs).1.head? =
        some ExtCall.cloneRepo ∧
      (checkout_and_build_thread DirectoryStatus.does_not_exist
          env repoUrl branch now fs).1.contains ExtCall.changeRemoteCall = false) ∧
    (checkout_and_build_thread DirectoryStatus.git_repo
        env repoUrl branch now fs).1.contains ExtCall.cloneRepo = false ∧
    ((checkout_and_build_thread DirectoryStatus.non_git env repoUrl branch now fs).1 = [] ∧
      (checkout_and_build_thread DirectoryStatus.non_git env repoUrl branch now fs).2.1 =
        ThreadOutcome.errForeignDir ∧
      (checkout_and_build_thread DirectoryStatus.non_git env repoUrl branch now fs).2.2 = fs) := by
  refine ⟨?_, ?_, ⟨rfl, rfl, rfl⟩⟩
  · unfold checkout_and_build_thread
    cases hc : clone_repository env.cloneRun with
    | error e => simp
    | ok r =>
      simp only []
      rcases runAfterRemote_calls_shape [ExtCall.cloneRepo] env repoUrl branch now fs with
        h | h | h <;> rw [h] <;> exact ⟨rfl, rfl⟩
  · unfold checkout_and_build_thread
    cases hc : change_remote env.remoteEnv with
    | error e => simp
    | ok r =>
      simp only []
      rcases runAfterRemote_calls_shape [ExtCall.changeRemoteCall] env repoUrl branch now fs with
        h | h | h <;> rw [h] <;> rfl

theorem runAfterRemote_build_outcome (firstCalls : List ExtCall) (env : ThreadEnv)
    (repoUrl branch now : String) (fs : FS) (c : Config)
    (hgood : fs.configFile = some (FileData.goodJson c))
    (hse : env.buildScriptExists = true) (hsf : env.buildScriptIsFile = true)
    (hfc : firstCalls.contains ExtCall.buildCall = false)
    (hreach : ExtCall.buildCall ∈ (runAfterRemote firstCalls env repoUrl branch now fs).1) :
    (env.buildRun = RunOutcome.completed 0 →
      (runAfterRemote firstCalls env repoUrl branch now fs).2.1 = ThreadOutcome.buildSuccess ∧
      ∃ c2, (runAfterRemote firstCalls env repoUrl branch now fs).2.2.configFile =
          some (FileData.goodJson c2) ∧
        c2.last_used_repo = some repoUrl ∧ c2.last_used_branch = some branch ∧
        c2.repositories = c.repositories) ∧
    (∀ rc : Int, rc ≠ 0 → env.buildRun = RunOutcome.completed rc →
      (runAfterRemote firstCalls env repoUrl branch now fs).2.1 =
        ThreadOutcome.buildFailed rc ∧
      (runAfterRemote firstCalls env repoUrl branch now fs).2.2 = fs) := by
  unfold runAfterRemote at hreach ⊢
  cases hck : checkout_branch env.checkoutRun with
  | error e =>
    exfalso
    rw [hck] at hreach
    simp at hreach
    rw [List.contains_eq_any_beq] at hfc
    simp at hfc
    exact hfc ExtCall.buildCall hreach rfl
  | ok r =>
    rw [hck] at hreach
    cases hsm : update_submodules env.submoduleRun with
    | error e =>
      exfalso
      rw [hsm] at hreach
      simp at hreach
      rw [List.contains_eq_any_beq] at hfc
      simp at hfc
      exact hfc ExtCall.buildCall hreach rfl
    | ok r2 =>
      constructor
      · intro hbr
        have hb : run_build env.buildScriptExists env.buildScriptIsFile env.buildRun =
            Except.ok { success := true, returncode := 0 } := by
          simp [run_build, hse, hsf, hbr]
        rw [hb]
        cases hd : c.default_repositories with
        | none =>
          simp [set_last_used, load_config, save_config, hgood, hd]
        | some l =>
          simp [set_last_used, load_config, save_config, hgood, hd]
      · intro rc hrc hbr
        have hb : run_build env.buildScriptExists env.buildScriptIsFile env.buildRun =
            Except.ok { success := false, returncode := rc } := by
          simp [run_build, hse, hsf, hbr, hrc]
        rw [hb]
        simp

/-- C2 counterexample: a build exiting 0 does not always yield Succeeded.
When the persisted configuration file is corrupted, the `set_last_used`
call raises `ConfigError`, the generic `except Exception` handler fires,
and a run whose build exited 0 terminates with the unexpected-error
message rather than the success message. -/
theorem c2_counterexample :
    ExtCall.buildCall ∈ (checkout_and_build_thread DirectoryStatus.does_not_exist
      { cloneRun := RunOutcome.completed 0,
        remoteEnv :=
          { setUrlRun := RunOutcome.completed 0, pruneRun := RunOutcome.completed 0,
            fetchRun := RunOutcome.completed 0 },
        checkoutRun := RunOutcome.completed 0, submoduleRun := RunOutcome.completed 0,
        buildScriptExists := true, buildScriptIsFile := true,
        buildRun := RunOutcome.completed 0 }
      "u" "b" "t" { configFile := some FileData.badJson, backupFile := none }).1 ∧
    (checkout_and_build_thread DirectoryStatus.does_not_exist
      { cloneRun := RunOutcome.completed 0,
        remoteEnv :=
          { setUrlRun := RunOutcome.completed 0, pruneRun := RunOutcome.completed 0,
            fetchRun := RunOutcome.completed 0 },
        checkoutRun := RunOutcome.completed 0, submoduleRun := RunOutcome.completed 0,
        buildScriptExists := true, buildScriptIsFile := true,
        buildRun := RunOutcome.completed 0 }
      "u" "b" "t" { configFile := some FileData.badJson, backupFile := none }).2.1 =
      ThreadOutcome.errUnexpected ∧
    (checkout_and_build_thread DirectoryStatus.does_not_exist
      { cloneRun := RunOutcome.completed 0,
        remoteEnv :=
          { setUrlRun := RunOutcome.completed 0, pruneRun := RunOutcome.completed 0,
            fetchRun := RunOutcome.completed 0 },
        checkoutRun := RunOutcome.completed 0, submoduleRun := RunOutcome.completed 0,
        buildScriptExists := true, buildScriptIsFile := true,
        buildRun := RunOutcome.completed 0 }
      "u" "b" "t" { configFile := some FileData.badJson, backupFile := none }).2.1 ≠
      ThreadOutcome.buildSuccess := by
  refine ⟨by decide, by decide, by decide⟩

/-- C2 (amended): for every run that reaches the build step with a
well-formed persisted configuration, a build exiting 0 yields the
success outcome and sets the persisted last-used state to the run's
(repository url, branch) while leaving the stored repository list
unchanged; a build exiting with any non-zero code yields the
build-failed outcome with that exit code and leaves the persisted state
entirely unchanged. (If the configuration file is corrupted, the
last-used update raises and a zero-exit build ends in the
unexpected-error outcome instead — see the counterexample.) -/
theorem c2_build_outcome (status : DirectoryStatus) (env : ThreadEnv)
    (repoUrl branch now : String) (fs : FS) (c : Config)
    (hgood : fs.configFile = some (FileData.goodJson c))
    (hse : env.buildScriptExists = true) (hsf : env.buildScriptIsFile = true)
    (hreach : ExtCall.buildCall ∈
      (checkout_and_build_thread status env repoUrl branch now fs).1) :
    (env.buildRun = RunOutcome.completed 0 →
      (checkout_and_build_thread status env repoUrl branch now fs).2.1 =
        ThreadOutcome.buildSuccess ∧
      ∃ c2, (checkout_and_build_thread status env repoUrl branch now fs).2.2.configFile =
          some (FileData.goodJson c2) ∧
        c2.last_used_repo = some repoUrl ∧ c2.last_used_branch = some branch ∧
        c2.repositories = c.repositories) ∧
    (∀ rc : Int, rc ≠ 0 → env.buildRun = RunOutcome.completed rc →
      (checkout_and_build_thread status env repoUrl branch now fs).2.1 =
        ThreadOutcome.buildFailed rc ∧
      (checkout_and_build_thread status env repoUrl branch now fs).2.2 = fs) := by
  cases status with
  | non_git => simp [checkout_and_build_thread] at hreach
  | does_not_exist =>
    unfold checkout_and_build_thread at hreach ⊢
    cases hcl : clone_repository env.cloneRun with
    | error e =>
      rw [hcl] at hreach
      simp at hreach
    | ok r =>
      rw [hcl] at hreach
      exact runAfterRemote_build_outcome [ExtCall.cloneRepo] env repoUrl branch now fs c
        hgood hse hsf rfl hreach
  | git_repo =>
    unfold checkout_and_build_thread at hreach ⊢
    cases hcr : change_remote env.remoteEnv with
    | error e =>
      rw [hcr] at hreach
      simp at hreach
    | ok r =>
      rw [hcr] at hreach
      exact runAfterRemote_build_outcome [ExtCall.changeRemoteCall] env repoUrl branch now fs c
        hgood hse hsf rfl hreach

/-- Witness for C2 (amended): a run over a well-formed configuration in
which every step succeeds and the build exits 0 ends in the success
outcome with last-used set; the same run with the build exiting 2 ends
in the build-failed outcome with the configuration untouched. -/
theorem c2_build_outcome_witness :
    (checkout_and_build_thread DirectoryStatus.does_not_exist
      { cloneRun := RunOutcome.completed 0,
        remoteEnv :=
          { setUrlRun := RunOutcome.completed 0, pruneRun := RunOutcome.completed 0,
            fetchRun := RunOutcome.completed 0 },
        checkoutRun := RunOutcome.completed 0, submoduleRun := RunOutcome.completed 0,
        buildScriptExists := true, buildScriptIsFile := true,
        buildRun := RunOutcome.completed 0 }
      "u" "b" "t"
      { configFile := some (FileData.goodJson
          { repositories := [], default_repositories := some [sbitxUrl],
            last_used_repo := some "", last_used_branch := some "" }),
        backupFile := none }).2.1 = ThreadOutcome.buildSuccess ∧
    (checkout_and_build_thread DirectoryStatus.does_not_exist
      { cloneRun := RunOutcome.completed 0,
        remoteEnv :=
          { setUrlRun := RunOutcome.completed 0, pruneRun := RunOutcome.completed 0,
            fetchRun := RunOutcome.completed 0 },
        checkoutRun := RunOutcome.completed 0, submoduleRun := RunOutcome.completed 0,
        buildScriptExists := true, buildScriptIsFile := true,
        buildRun := RunOutcome.completed 2 }
      "u" "b" "t"
      { configFile := some (FileData.goodJson
          { repositories := [], default_repositories := some [sbitxUrl],
            last_used_repo := some "", last_used_branch := some "" }),
        backupFile := none }).2.1 = ThreadOutcome.buildFailed 2 := by
  constructor
  · exact ((c2_build_outcome DirectoryStatus.does_not_exist
      { cloneRun := RunOutcome.completed 0,
        remoteEnv :=
          { setUrlRun := RunOutcome.completed 0, pruneRun := RunOutcome.completed 0,
            fetchRun := RunOutcome.completed 0 },
        checkoutRun := RunOutcome.completed 0, submoduleRun := RunOutcome.completed 0,
        buildScriptExists := true, buildScriptIsFile := true,
        buildRun := RunOutcome.completed 0 }
      "u" "b" "t" _
      { repositories := [], default_repositories := some [sbitxUrl],
        last_used_repo := some "", last_used_branch := some "" }
      rfl rfl rfl (by decide)).1 rfl).1
  · exact ((c2_build_outcome DirectoryStatus.does_not_exist
      { cloneRun := RunOutcome.completed 0,
        remoteEnv :=
          { setUrlRun := RunOutcome.completed 0, pruneRun := RunOutcome.completed 0,
            fetchRun := RunOutcome.completed 0 },
        checkoutRun := RunOutcome.completed 0, submoduleRun := RunOutcome.completed 0,
        buildScriptExists := true, buildScriptIsFile := true,
        buildRun := RunOutcome.completed 2 }
      "u" "b" "t" _
      { repositories := [], default_repositories := some [sbitxUrl],
        last_used_repo := some "", last_used_branch := some "" }
      rfl rfl rfl (by decide)).2 2 (by decide) rfl).1

/-- C8 counterexample: the failing load itself does not create a fresh
default state. On a corrupted file, `load_config` renames the file to
the backup name and raises, leaving no configuration file at all — the
default configuration is only written by a later load. -/
theorem c8_counterexample :
    (load_config "t" { configFile := some FileData.badJson, backupFile := none }).1 =
      Except.error ConfigExn.corrupted ∧
    (load_config "t" { configFile := some FileData.badJson, backupFile := none }).2 =
      { configFile := none, backupFile := some FileData.badJson } ∧
    (load_config "t" { configFile := some FileData.badJson, backupFile := none }).2.configFile ≠
      some (FileData.goodJson (default_config "t")) := by
  refine ⟨by decide, by decide, by decide⟩

/-- C8 (amended): on a parse failure, `load_config` renames the existing
file to the `.backup` name and informs the caller via the recoverable
`ConfigError`, leaving the corrupted file out of place; the fresh default
state is then created by the next load, which finds no configuration
file. -/
theorem c8_corruption_handling (now now2 : String) (fs : FS)
    (hbad : fs.configFile = some FileData.badJson) :
    (load_config now fs).1 = Except.error ConfigExn.corrupted ∧
    (load_config now fs).2.configFile = none ∧
    (load_config now fs).2.backupFile = some FileData.badJson ∧
    (load_config now2 (load_config now fs).2).1 = Except.ok (default_config now2) ∧
    (load_config now2 (load_config now fs).2).2.configFile =
      some (FileData.goodJson (default_config now2)) := by
  refine ⟨?_, ?_, ?_, ?_, ?_⟩ <;>
    simp [load_config, hbad, create_default_config, save_config]

/-- Witness for C8 (amended) at a concrete corrupted store. -/
theorem c8_corruption_handling_witness :
    (load_config "t1" { configFile := some FileData.badJson, backupFile := none }).1 =
      Except.error ConfigExn.corrupted ∧
    (load_config "t2" (load_config "t1"
        { configFile := some FileData.badJson, backupFile := none }).2).1 =
      Except.ok (default_config "t2") := by
  have h := c8_corruption_handling "t1" "t2"
    { configFile := some FileData.badJson, backupFile := none } rfl
  exact ⟨h.1, h.2.2.2.1⟩

/-- C9: a URL listed among the default/protected repository URLs is
never removable: `remove_repository` returns `False` and the stored
repository list is unchanged, regardless of whether the URL also appears
in the repository list. (The protected list is the one the loader
guarantees: the stored `default_repositories` key, or the hard-coded
sbitx URL when the key is absent.) -/
theorem c9_default_repos_not_removable (url now : String) (fs : FS) (c : Config)
    (hgood : fs.configFile = some (FileData.goodJson c))
    (hdef : url ∈ c.default_repositories.getD [sbitxUrl]) :
    (remove_repository url now fs).1 = Except.ok false ∧
    ∃ c2, (remove_repository url now fs).2.configFile = some (FileData.goodJson c2) ∧
      c2.repositories = c.repositories := by
  cases hd : c.default_repositories with
  | none =>
    rw [hd] at hdef
    have hurl : url = sbitxUrl := by simpa using hdef
    subst hurl
    refine ⟨?_, ?_⟩ <;>
      simp [remove_repository, is_default_repository, load_config, save_config, hgood, hd]
  | some l =>
    rw [hd] at hdef
    simp only [Option.getD_some] at hdef
    refine ⟨?_, ?_⟩ <;>
      simp [remove_repository, is_default_repository, load_config, save_config, hgood, hd, hdef]

/-- A concrete stored repository record used by the C9 witness. -/
def c9SampleRepo : Repository :=
  { url := sbitxUrl, display_name := "drexjj/sbitx", added_date := "t0" }

/-- A concrete well-formed stored configuration (listing the protected
URL both as a default and as a repository) used by the C9 witness. -/
def c9SampleConfig : Config :=
  { repositories := [c9SampleRepo], default_repositories := some [sbitxUrl],
    last_used_repo := some "", last_used_branch := some "" }

/-- Witness for C9: the hard-coded default URL is not removable from a
concrete well-formed store that also lists it as a repository. -/
theorem c9_default_repos_not_removable_witness :
    (remove_repository sbitxUrl "t"
      { configFile := some (FileData.goodJson c9SampleConfig),
        backupFile := none }).1 = Except.ok false := by
  have h := c9_default_repos_not_removable sbitxUrl "t"
    { configFile := some (FileData.goodJson c9SampleConfig), backupFile := none }
    c9SampleConfig rfl (by decide)
  exact h.1
